import Mathlib

/-!
# Verification of the `mailer` local email cache and synchronization subsystem

Shallow embedding of the core of the `mailer` repository:

* `src/mailer/types.py` — the `GmailMessage` record model (and the dynamic
  attribute surface that Python / pydantic gives it);
* `src/mailer/storage.py` — the flat file-backed store (`EmailStorage`,
  `StorageIndex`);
* `src/mailer/database.py` — the SQLite-backed relational store
  (`extract_email_parts`, `insert_email`, `insert_emails`).

The filesystem is modelled as an association list from message id to stored
JSON document, mutations of the in-memory index are explicit state passing,
and the side effects performed by a batch store (message-file writes, the
`last_sync` update, the index save) are recorded in an explicit event trace so
that "exactly once, at the end of the batch" is a provable statement.
-/

set_option autoImplicit false

namespace Mailer

/-! ## JSON documents

The documents this subsystem serializes (`index.json`, `messages/<id>.json`)
only ever hold strings, integers and arrays of strings, so a JSON value is
modelled by exactly those shapes; an object is an association list of fields.
-/

/-- A JSON field value as used by the mailer storage layer. -/
inductive JValue where
  | str (s : String)
  | int (n : Int)
  | strArr (xs : List String)
deriving DecidableEq, Repr

/-- A serialized JSON document: a flat object, i.e. an association list of
fields. Every document this subsystem writes (`index.json`,
`messages/<id>.json`) has this shape. -/
def JDoc : Type := List (String × JValue)

instance : DecidableEq JDoc := by
  unfold JDoc
  infer_instance

/-- Look up a field of a JSON object (first occurrence wins). -/
def jLookup (fields : JDoc) (k : String) : Option JValue :=
  (fields.find? (fun p => p.1 == k)).map (·.2)

/-- Read a JSON value as a string. -/
def JValue.asStr : JValue → Option String
  | .str s => some s
  | _ => none

/-- Read a JSON value as an integer. -/
def JValue.asInt : JValue → Option Int
  | .int n => some n
  | _ => none

/-- Read a JSON value as an array of strings. -/
def JValue.asStrArr : JValue → Option (List String)
  | .strArr xs => some xs
  | _ => none

/-! ## The record model (`src/mailer/types.py`)

`GmailMessage` is embedded with exactly the fields declared in
`src/mailer/types.py`; every field except `id` and `thread_id` has the
declared default.
-/

/-- The `GmailMessage` pydantic model of `src/mailer/types.py`. The Python
field named `to` is embedded as `to_` because `to` is reserved in Lean. -/
structure GmailMessage where
  id : String
  thread_id : String
  label_ids : List String := []
  snippet : String := ""
  from_email : String := ""
  to_ : List String := []
  subject : String := ""
  body : String := ""
  timestamp : Int := 0
deriving DecidableEq, Repr

/-- The `GmailAttachment` pydantic model of `src/mailer/types.py`. -/
structure GmailAttachment where
  filename : String
  mime_type : String
  size : Int
  attachment_id : Option String := none
deriving DecidableEq, Repr

/-- A dynamic Python value, as far as this subsystem manipulates them:
strings, integers, lists of strings, and lists of attachment objects. -/
inductive PyValue where
  | str (s : String)
  | int (n : Int)
  | strList (xs : List String)
  | attList (xs : List GmailAttachment)
deriving DecidableEq, Repr

/-- Python attribute lookup on a `GmailMessage` value: pydantic models expose
exactly their declared fields; any other attribute name raises
`AttributeError`, modelled here by `none`. -/
def GmailMessage.getattr (m : GmailMessage) (name : String) : Option PyValue :=
  if name == "id" then some (.str m.id)
  else if name == "thread_id" then some (.str m.thread_id)
  else if name == "label_ids" then some (.strList m.label_ids)
  else if name == "snippet" then some (.str m.snippet)
  else if name == "from_email" then some (.str m.from_email)
  else if name == "to" then some (.strList m.to_)
  else if name == "subject" then some (.str m.subject)
  else if name == "body" then some (.str m.body)
  else if name == "timestamp" then some (.int m.timestamp)
  else none

/-- Python `hasattr` on a `GmailMessage`. -/
def GmailMessage.hasattr (m : GmailMessage) (name : String) : Bool :=
  (m.getattr name).isSome

/-! ## Serialization of a message (`model_dump_json` / `model_validate_json`) -/

/-- `model_dump_json` for `GmailMessage`: every declared field is dumped, in
declaration order, with empty lists and empty strings dumped as empty values
(never omitted, never `null`). -/
def GmailMessage.toJson (m : GmailMessage) : JDoc :=
  [ ("id", .str m.id)
  , ("thread_id", .str m.thread_id)
  , ("label_ids", .strArr m.label_ids)
  , ("snippet", .str m.snippet)
  , ("from_email", .str m.from_email)
  , ("to", .strArr m.to_)
  , ("subject", .str m.subject)
  , ("body", .str m.body)
  , ("timestamp", .int m.timestamp) ]

/-- Read an optional field: absent means the pydantic default, present must
have the right shape. -/
def jField {α : Type} (fields : JDoc) (k : String)
    (read : JValue → Option α) (dflt : α) : Option α :=
  match jLookup fields k with
  | none => some dflt
  | some v => read v

/-- `model_validate_json` for `GmailMessage`: `id` and `thread_id` are
required, every other field falls back to its declared default. -/
def GmailMessage.fromJson (fields : JDoc) : Option GmailMessage := do
  let id ← (jLookup fields "id").bind JValue.asStr
  let thread_id ← (jLookup fields "thread_id").bind JValue.asStr
  let label_ids ← jField fields "label_ids" JValue.asStrArr []
  let snippet ← jField fields "snippet" JValue.asStr ""
  let from_email ← jField fields "from_email" JValue.asStr ""
  let to_ ← jField fields "to" JValue.asStrArr []
  let subject ← jField fields "subject" JValue.asStr ""
  let body ← jField fields "body" JValue.asStr ""
  let timestamp ← jField fields "timestamp" JValue.asInt 0
  pure { id, thread_id, label_ids, snippet, from_email, to_, subject, body,
         timestamp }

/-! ## The flat store (`src/mailer/storage.py`) -/

/-- The `StorageIndex` pydantic model: the sidecar index of the flat store.
`message_ids` is a Python `set`, embedded as a `Finset`. -/
structure StorageIndex where
  version : Nat := 1
  last_sync : String := ""
  message_ids : Finset String := ∅
  total_messages : Nat := 0
deriving DecidableEq

/-- One observable side effect of the flat store: a message-file write, the
in-memory `last_sync` update, or a save of the index file. -/
inductive FsEvent where
  | writeMessageFile (id : String) (content : JDoc)
  | setLastSync (t : String)
  | saveIndex (idx : StorageIndex)
deriving DecidableEq

/-- The state an `EmailStorage` instance acts on: the contents of the
`messages/` directory (an association list from message id to the JSON
document in `messages/<id>.json`), the in-memory index, and the trace of
side effects performed so far. -/
structure StorageState where
  files : List (String × JDoc) := []
  index : StorageIndex := {}
  events : List FsEvent := []
deriving DecidableEq

/-- Contents of `messages/<id>.json`, or `none` when the file is missing. -/
def lookupFile (files : List (String × JDoc)) (id : String) : Option JDoc :=
  (files.find? (fun p => p.1 == id)).map (·.2)

/-- Write (create or overwrite) `messages/<id>.json`. -/
def writeFile (files : List (String × JDoc)) (id : String) (content : JDoc) :
    List (String × JDoc) :=
  (id, content) :: files.filter (fun p => p.1 != id)

/-- `EmailStorage.has_message`: membership test against the in-memory index. -/
def has_message (st : StorageState) (message_id : String) : Bool :=
  message_id ∈ st.index.message_ids

/-- `EmailStorage.get_new_message_ids`: filter to only message ids not already
stored, preserving input order. -/
def get_new_message_ids (st : StorageState) (message_ids : List String) :
    List String :=
  message_ids.filter (fun mid => mid ∉ st.index.message_ids)

/-- `EmailStorage.store_message`: write the message file, add the id to the
index, recompute `total_messages` as the cardinality of `message_ids`. -/
def store_message (st : StorageState) (message : GmailMessage) : StorageState :=
  let content := message.toJson
  let ids := insert message.id st.index.message_ids
  { files := writeFile st.files message.id content
    index := { st.index with message_ids := ids, total_messages := ids.card }
    events := st.events ++ [.writeMessageFile message.id content] }

/-- The per-record loop of `EmailStorage.store_messages`: store each message
whose id is not yet in the index, counting how many were stored. -/
def store_messages_loop (st : StorageState) (stored : Nat) :
    List GmailMessage → StorageState × Nat
  | [] => (st, stored)
  | msg :: rest =>
    if has_message st msg.id then store_messages_loop st stored rest
    else store_messages_loop (store_message st msg) (stored + 1) rest

/-- `EmailStorage.store_messages`: run the per-record loop, then set
`last_sync` to the current time (`now`, the value of
`datetime.now().isoformat()`), then save the index — each exactly once, at
the end of the batch. Returns the count of newly stored messages. -/
def store_messages (st : StorageState) (messages : List GmailMessage)
    (now : String) : StorageState × Nat :=
  let (st1, stored) := store_messages_loop st 0 messages
  let idx := { st1.index with last_sync := now }
  let st2 := { st1 with
    index := idx
    events := st1.events ++ [.setLastSync now, .saveIndex idx] }
  (st2, stored)

/-- `EmailStorage.load_message`: read and deserialize `messages/<id>.json`;
`Except.ok none` when the file is missing (the index is not consulted),
`Except.error ()` when the file exists but fails to validate (the
`model_validate_json` exception propagating). -/
def load_message (st : StorageState) (message_id : String) :
    Except Unit (Option GmailMessage) :=
  match lookupFile st.files message_id with
  | some content =>
    match GmailMessage.fromJson content with
    | some m => .ok (some m)
    | none => .error ()
  | none => .ok none

/-! ## Theorems about the flat store -/

/-- Helper facts for claim C1. -/
theorem get_new_message_ids_filter (st : StorageState) (ids : List String) :
    get_new_message_ids st ids
      = ids.filter (fun mid => mid ∉ st.index.message_ids) := rfl

/-- **C1.** `get_new_message_ids(candidate_ids)` returns exactly those
elements of `candidate_ids` that are not in the known-id set `K`, in input
order (it is a sublist of the input and membership is exactly set
difference, with multiplicities preserved on the kept elements); it is empty
whenever `K ⊇ candidate_ids` and is the whole input whenever `K` is empty. -/
theorem get_new_message_ids_spec (st : StorageState) (ids : List String) :
    (get_new_message_ids st ids).Sublist ids
    ∧ (∀ x, x ∈ get_new_message_ids st ids
        ↔ x ∈ ids ∧ x ∉ st.index.message_ids)
    ∧ (∀ x, (get_new_message_ids st ids).count x
        = if x ∈ st.index.message_ids then 0 else ids.count x)
    ∧ ((∀ x ∈ ids, x ∈ st.index.message_ids) → get_new_message_ids st ids = [])
    ∧ (st.index.message_ids = ∅ → get_new_message_ids st ids = ids) := by
  refine ⟨List.filter_sublist ids, ?_, ?_, ?_, ?_⟩
  · intro x
    simp [get_new_message_ids]
  · intro x
    by_cases hx : x ∈ st.index.message_ids
    · simp only [hx, if_true]
      rw [List.count_eq_zero]
      simp [get_new_message_ids, hx]
    · simp only [hx, if_false]
      rw [get_new_message_ids_filter, List.count_filter]
      simp [hx]
  · intro h
    rw [get_new_message_ids_filter, List.filter_eq_nil_iff]
    intro a ha
    simpa using h a ha
  · intro h
    rw [get_new_message_ids_filter, List.filter_eq_self]
    intro a _
    simp [h]

/-- Witness for C1 at a concrete input: with known-id set `{"b"}` the
candidate list `["a", "b", "c"]` is filtered to `["a", "c"]`, and with an
empty known-id set it is returned whole. -/
theorem get_new_message_ids_spec_witness :
    get_new_message_ids
        { index := { message_ids := {"b"} } } ["a", "b", "c"] = ["a", "c"]
    ∧ get_new_message_ids {} ["a", "b", "c"] = ["a", "b", "c"] := by
  constructor
  · rfl
  · exact (get_new_message_ids_spec {} ["a", "b", "c"]).2.2.2.2 rfl

/-- Deserializing a dumped message recovers every field exactly. -/
theorem fromJson_toJson (m : GmailMessage) :
    GmailMessage.fromJson m.toJson = some m := rfl

/-- Reading back the id just written returns the new content. -/
theorem lookupFile_writeFile_self (files : List (String × JDoc)) (id : String)
    (content : JDoc) : lookupFile (writeFile files id content) id = some content := by
  simp [lookupFile, writeFile]

/-- `find?` is unchanged by filtering out only elements the predicate
rejects. -/
theorem find?_filter_of_imp {α : Type} (l : List α) (f q : α → Bool)
    (h : ∀ x, f x = true → q x = true) : (l.filter q).find? f = l.find? f := by
  induction l with
  | nil => rfl
  | cons a t ih =>
    by_cases hq : q a
    · by_cases hf : f a
      · simp [List.filter_cons, hq, List.find?_cons, hf]
      · simp only [List.filter_cons, hq, if_true]
        rw [List.find?_cons_of_neg _ (by simp [hf]),
          List.find?_cons_of_neg _ (by simp [hf])]
        exact ih
    · have hf : f a = false := by
        by_contra hc
        exact hq (h a (by simpa using hc))
      have hq' : q a = false := by simpa using hq
      simp only [List.filter_cons, hq', Bool.false_eq_true, if_false]
      rw [ih, List.find?_cons_of_neg _ (by simp [hf])]

/-- Reading a different id is unaffected by a write. -/
theorem lookupFile_writeFile_ne (files : List (String × JDoc))
    (id id' : String) (content : JDoc) (h : id' ≠ id) :
    lookupFile (writeFile files id content) id' = lookupFile files id' := by
  unfold lookupFile writeFile
  rw [List.find?_cons_of_neg _ (by simpa using fun hc => (h hc.symm).elim)]
  rw [find?_filter_of_imp]
  intro x hx
  simp only [beq_iff_eq] at hx
  simp [hx, h]

/-- **C6.** Round trip through the flat store: after `store_message(r)`,
`load_message(r.id)` returns a record equal to `r` in every field; in
particular (second conjunct, at a record all of whose optional fields are the
empty defaults) empty lists and empty strings are reproduced exactly as empty
values, not as `null`/absent. -/
theorem store_load_round_trip :
    (∀ (st : StorageState) (m : GmailMessage),
      load_message (store_message st m) m.id = .ok (some m))
    ∧ load_message (store_message {} { id := "m0", thread_id := "t0" }) "m0"
        = .ok (some { id := "m0", thread_id := "t0", label_ids := [],
                      snippet := "", from_email := "", to_ := [],
                      subject := "", body := "", timestamp := 0 }) := by
  have h : ∀ (st : StorageState) (m : GmailMessage),
      load_message (store_message st m) m.id = .ok (some m) := by
    intro st m
    unfold load_message store_message
    simp only [lookupFile_writeFile_self, fromJson_toJson]
  exact ⟨h, h {} { id := "m0", thread_id := "t0" }⟩

/-- **C9.** `load_message(id)` returns `None` (not an error) whenever the
file `messages/<id>.json` is missing, regardless of the index contents — in
particular even when the in-memory index's `message_ids` set contains the
id. -/
theorem load_message_missing_file (st : StorageState) (message_id : String)
    (h : lookupFile st.files message_id = none) :
    load_message st message_id = .ok none := by
  unfold load_message
  rw [h]

/-- Witness for C9 at a concrete input: a state whose index claims `"ghost"`
exists but whose `messages/` directory holds no file for it. -/
theorem load_message_missing_file_witness :
    "ghost" ∈ ({ files := [("other", [])],
                 index := { message_ids := {"ghost"}, total_messages := 1 } }
        : StorageState).index.message_ids
    ∧ load_message
        { files := [("other", [])],
          index := { message_ids := {"ghost"}, total_messages := 1 } } "ghost"
      = .ok none := by
  refine ⟨by decide, ?_⟩
  exact load_message_missing_file
    { files := [("other", [])],
      index := { message_ids := {"ghost"}, total_messages := 1 } } "ghost" rfl

/-- The flat-store index invariant: `total_messages` equals the cardinality
of `message_ids`. -/
def index_invariant (idx : StorageIndex) : Prop :=
  idx.total_messages = idx.message_ids.card

instance (idx : StorageIndex) : Decidable (index_invariant idx) := by
  unfold index_invariant
  infer_instance

/-- The per-record loop of `store_messages` preserves the index invariant. -/
theorem store_messages_loop_invariant (msgs : List GmailMessage) :
    ∀ (st : StorageState) (stored : Nat), index_invariant st.index →
      index_invariant (store_messages_loop st stored msgs).1.index := by
  induction msgs with
  | nil => intro st stored h; exact h
  | cons msg rest ih =>
    intro st stored h
    unfold store_messages_loop
    by_cases hmem : has_message st msg.id
    · simpa [hmem] using ih st stored h
    · simp only [hmem, if_false]
      exact ih _ _ rfl

/-- **C10.** Every `EmailStorage` operation preserves the index invariant
`total_messages = |message_ids|`: `store_message` adds the record's id to
`message_ids` and recomputes `total_messages` as the cardinality of the new
set (restoring the invariant unconditionally), and `store_messages`
preserves the invariant across every batch (no other operation in
`storage.py` mutates either field). -/
theorem index_invariant_preserved :
    (∀ (st : StorageState) (m : GmailMessage),
      (store_message st m).index.message_ids = insert m.id st.index.message_ids
      ∧ (store_message st m).index.total_messages
          = (insert m.id st.index.message_ids).card)
    ∧ (∀ (st : StorageState) (m : GmailMessage),
        index_invariant (store_message st m).index)
    ∧ (∀ (st : StorageState) (msgs : List GmailMessage) (now : String),
        index_invariant st.index →
        index_invariant (store_messages st msgs now).1.index) := by
  refine ⟨fun st m => ⟨rfl, rfl⟩, fun st m => rfl, ?_⟩
  intro st msgs now h
  unfold store_messages
  exact store_messages_loop_invariant msgs st 0 h

/-- Witness for C10 at a concrete input: a batch of two messages against an
initially consistent one-element index. -/
theorem index_invariant_preserved_witness :
    index_invariant ({ index := { message_ids := {"a"}, total_messages := 1 } }
        : StorageState).index
    ∧ index_invariant
        (store_messages { index := { message_ids := {"a"}, total_messages := 1 } }
          [{ id := "b", thread_id := "t" }, { id := "c", thread_id := "t" }]
          "2024-01-01T00:00:00").1.index := by
  refine ⟨by decide, ?_⟩
  exact index_invariant_preserved.2.2
    { index := { message_ids := {"a"}, total_messages := 1 } }
    [{ id := "b", thread_id := "t" }, { id := "c", thread_id := "t" }]
    "2024-01-01T00:00:00" (by decide)

/-! ### The `store_messages` batch (claim C2)

`EmailStorage.store_messages` does **not** apply `store_message` to every
record of the batch: each record is guarded by `has_message`, so a record
whose id is already in the index is skipped and its file is left untouched.
The lemmas below characterize exactly what the loop does.
-/

/-- A trace entry produced by the per-record loop is always a message-file
write. -/
def isWrite (e : FsEvent) : Prop :=
  ∃ i c, e = FsEvent.writeMessageFile i c

/-- The per-record loop: known ids only grow. -/
theorem store_messages_loop_mono (msgs : List GmailMessage) :
    ∀ (st : StorageState) (stored : Nat),
      st.index.message_ids ⊆
        (store_messages_loop st stored msgs).1.index.message_ids := by
  induction msgs with
  | nil => intro st stored; exact Finset.Subset.refl _
  | cons msg rest ih =>
    intro st stored
    unfold store_messages_loop
    by_cases hmem : has_message st msg.id = true
    · rw [if_pos hmem]
      exact ih st stored
    · rw [if_neg hmem]
      exact (Finset.subset_insert _ _).trans (ih (store_message st msg) (stored + 1))

/-- The per-record loop: the returned count plus the initial number of known
ids equals the initial accumulator plus the final number of known ids (i.e.
the loop counts exactly the newly added ids). -/
theorem store_messages_loop_count (msgs : List GmailMessage) :
    ∀ (st : StorageState) (stored : Nat),
      (store_messages_loop st stored msgs).2 + st.index.message_ids.card
        = stored + (store_messages_loop st stored msgs).1.index.message_ids.card := by
  induction msgs with
  | nil => intro st stored; rfl
  | cons msg rest ih =>
    intro st stored
    unfold store_messages_loop
    by_cases hmem : has_message st msg.id = true
    · rw [if_pos hmem]
      exact ih st stored
    · rw [if_neg hmem]
      have hcard : (store_message st msg).index.message_ids.card
          = st.index.message_ids.card + 1 := by
        have hnot : msg.id ∉ st.index.message_ids := by
          simpa [has_message] using hmem
        simpa [store_message] using Finset.card_insert_of_not_mem hnot
      have := ih (store_message st msg) (stored + 1)
      omega

/-- The per-record loop: it appends only message-file writes to the trace. -/
theorem store_messages_loop_events (msgs : List GmailMessage) :
    ∀ (st : StorageState) (stored : Nat),
      ∃ ws : List FsEvent, (∀ e ∈ ws, isWrite e)
        ∧ (store_messages_loop st stored msgs).1.events = st.events ++ ws := by
  induction msgs with
  | nil => intro st stored; exact ⟨[], by simp, by simp [store_messages_loop]⟩
  | cons msg rest ih =>
    intro st stored
    unfold store_messages_loop
    by_cases hmem : has_message st msg.id = true
    · rw [if_pos hmem]
      exact ih st stored
    · rw [if_neg hmem]
      obtain ⟨ws, hws, hev⟩ := ih (store_message st msg) (stored + 1)
      refine ⟨FsEvent.writeMessageFile msg.id msg.toJson :: ws, ?_, ?_⟩
      · intro e he
        rcases List.mem_cons.mp he with rfl | he'
        · exact ⟨msg.id, msg.toJson, rfl⟩
        · exact hws e he'
      · rw [hev]
        simp [store_message]

/-- The per-record loop never rewrites the file of an id that is already in
the index when the loop starts. -/
theorem store_messages_loop_skips_known (msgs : List GmailMessage) :
    ∀ (st : StorageState) (stored : Nat) (id : String),
      id ∈ st.index.message_ids →
      lookupFile (store_messages_loop st stored msgs).1.files id
        = lookupFile st.files id := by
  induction msgs with
  | nil => intro st stored id _; rfl
  | cons msg rest ih =>
    intro st stored id hid
    unfold store_messages_loop
    by_cases hmem : has_message st msg.id = true
    · rw [if_pos hmem]
      exact ih st stored id hid
    · rw [if_neg hmem]
      have hne : id ≠ msg.id := by
        rintro rfl
        exact hmem (by simpa [has_message] using hid)
      have hid' : id ∈ (store_message st msg).index.message_ids := by
        simp [store_message, hid]
      rw [ih (store_message st msg) (stored + 1) id hid']
      exact lookupFile_writeFile_ne st.files msg.id id msg.toJson hne

/-- The per-record loop stores the first record of each id that is new when
that record is reached; under distinct batch ids, every record whose id is
not initially known ends up stored with its own serialization. -/
theorem store_messages_loop_stores_new (msgs : List GmailMessage)
    (hnd : (msgs.map GmailMessage.id).Nodup) :
    ∀ (st : StorageState) (stored : Nat) (m : GmailMessage), m ∈ msgs →
      m.id ∉ st.index.message_ids →
      lookupFile (store_messages_loop st stored msgs).1.files m.id
        = some m.toJson := by
  induction msgs with
  | nil => intro st stored m hm; exact absurd hm (List.not_mem_nil m)
  | cons msg rest ih =>
    intro st stored m hm hnew
    have hnd' : (rest.map GmailMessage.id).Nodup := (List.nodup_cons.mp hnd).2
    rcases List.mem_cons.mp hm with rfl | hm'
    · unfold store_messages_loop
      have hmem : ¬(has_message st m.id = true) := by
        simpa [has_message] using hnew
      rw [if_neg hmem]
      have hid' : m.id ∈ (store_message st m).index.message_ids := by
        simp [store_message]
      rw [store_messages_loop_skips_known rest (store_message st m)
        (stored + 1) m.id hid']
      exact lookupFile_writeFile_self st.files m.id m.toJson
    · unfold store_messages_loop
      by_cases hmem : has_message st msg.id = true
      · rw [if_pos hmem]
        exact ih hnd' st stored m hm' hnew
      · rw [if_neg hmem]
        have hne : m.id ≠ msg.id := by
          intro hc
          exact (List.nodup_cons.mp hnd).1 (hc ▸ List.mem_map_of_mem _ hm')
        have hnew' : m.id ∉ (store_message st msg).index.message_ids := by
          simp only [store_message, Finset.mem_insert]
          rintro (hc | hc)
          · exact hne hc
          · exact hnew hc
        exact ih hnd' (store_message st msg) (stored + 1) m hm' hnew'

/-- Unfolding `store_messages` once the loop result is known. -/
theorem store_messages_eq (st : StorageState) (msgs : List GmailMessage)
    (now : String) (st1 : StorageState) (stored : Nat)
    (h : store_messages_loop st 0 msgs = (st1, stored)) :
    store_messages st msgs now
      = ({ files := st1.files
           index := { st1.index with last_sync := now }
           events := st1.events
             ++ [FsEvent.setLastSync now,
                 FsEvent.saveIndex { st1.index with last_sync := now }] },
         stored) := by
  unfold store_messages
  rw [h]

/-- **C2, counterexample.** The claim says `store_messages` applies `store`
to each record of the batch, overwriting prior content even for ids already
present in the index. On the code this is false: a record whose id is
already in the index is skipped entirely. Concretely, with `"a"` already
indexed and `messages/a.json` holding an old record, a batch containing a
changed record with the same id leaves the file holding the old content,
and reports zero newly stored messages. -/
theorem store_messages_overwrite_counterexample :
    lookupFile
        (store_messages
          { files := [("a", GmailMessage.toJson { id := "a", thread_id := "t", subject := "old" })]
            index := { message_ids := {"a"}, total_messages := 1 } }
          [{ id := "a", thread_id := "t", subject := "new" }] "t1").1.files "a"
      = some (GmailMessage.toJson { id := "a", thread_id := "t", subject := "old" })
    ∧ GmailMessage.toJson { id := "a", thread_id := "t", subject := "old" }
        ≠ GmailMessage.toJson { id := "a", thread_id := "t", subject := "new" }
    ∧ (store_messages
          { files := [("a", GmailMessage.toJson { id := "a", thread_id := "t", subject := "old" })]
            index := { message_ids := {"a"}, total_messages := 1 } }
          [{ id := "a", thread_id := "t", subject := "new" }] "t1").2 = 0 := by
  refine ⟨?_, by decide, ?_⟩ <;> rfl

/-- **C2, amended.** `store_messages` applies `store_message` to exactly
those records whose id is not in the index at the moment the record is
processed (records with already-known ids are skipped and their files left
untouched); it sets `last_sync` exactly once at the end of the batch and
persists the index exactly once at the end (the event trace it appends is a
run of message-file writes followed by exactly one `last_sync` update and
one index save, in that order), and it returns the count of newly added
ids. Stated for batches with pairwise distinct ids. -/
theorem store_messages_spec (st : StorageState) (msgs : List GmailMessage)
    (now : String) (hnd : (msgs.map GmailMessage.id).Nodup) :
    ((store_messages st msgs now).2
        = (store_messages st msgs now).1.index.message_ids.card
          - st.index.message_ids.card)
    ∧ (store_messages st msgs now).1.index.last_sync = now
    ∧ (∃ ws : List FsEvent, (∀ e ∈ ws, isWrite e)
        ∧ (store_messages st msgs now).1.events
          = st.events ++ ws
            ++ [FsEvent.setLastSync now,
                FsEvent.saveIndex (store_messages st msgs now).1.index])
    ∧ (∀ id ∈ st.index.message_ids,
        lookupFile (store_messages st msgs now).1.files id
          = lookupFile st.files id)
    ∧ (∀ m ∈ msgs, m.id ∉ st.index.message_ids →
        lookupFile (store_messages st msgs now).1.files m.id
          = some m.toJson) := by
  rcases hloop : store_messages_loop st 0 msgs with ⟨st1, stored⟩
  have hsm := store_messages_eq st msgs now st1 stored hloop
  obtain ⟨ws, hws, hev⟩ := store_messages_loop_events msgs st 0
  rw [hloop] at hev
  refine ⟨?_, by rw [hsm], ⟨ws, hws, ?_⟩, ?_, ?_⟩
  · have hcount := store_messages_loop_count msgs st 0
    have hsub : st.index.message_ids ⊆
        (store_messages_loop st 0 msgs).1.index.message_ids :=
      store_messages_loop_mono msgs st 0
    rw [hloop] at hcount hsub
    have hcard := Finset.card_le_card hsub
    rw [hsm]
    simp only at hcount hcard ⊢
    omega
  · rw [hsm]
    simp only at hev
    rw [hev, List.append_assoc]
  · intro id hid
    have := store_messages_loop_skips_known msgs st 0 id hid
    rw [hloop] at this
    rw [hsm]
    exact this
  · intro m hm hnew
    have := store_messages_loop_stores_new msgs hnd st 0 m hm hnew
    rw [hloop] at this
    rw [hsm]
    exact this

/-- Witness for the amended C2 at a concrete input: an empty store, a batch
of two records with distinct ids. -/
theorem store_messages_spec_witness :
    (([{ id := "a", thread_id := "t" }, { id := "b", thread_id := "t" }]
        : List GmailMessage).map GmailMessage.id).Nodup
    ∧ lookupFile
        (store_messages {}
          [{ id := "a", thread_id := "t" }, { id := "b", thread_id := "t" }]
          "t1").1.files "a"
      = some (GmailMessage.toJson { id := "a", thread_id := "t" }) := by
  refine ⟨by decide, ?_⟩
  exact (store_messages_spec {}
    [{ id := "a", thread_id := "t" }, { id := "b", thread_id := "t" }]
    "t1" (by decide)).2.2.2.2
    { id := "a", thread_id := "t" } (by simp) (by decide)

/-! ## The relational store (`src/mailer/database.py`)

### Address parsing: `extract_email_parts`

The source matches the trimmed `From` header against the regular expression
`^"?([^"<]*)"?\s*<([^>]+)>$` (Python `re.match`, leftmost-greedy with
backtracking). For this fixed pattern the only genuine choice points are the
two optional quotes and the length of the greedy name group `([^"<]*)`:

* `\s*` is followed by the literal `<`, and no whitespace character is `<`,
  so the maximal whitespace run is the only viable choice;
* `([^>]+)` is followed by `>`, and the group excludes `>`, so it must run
  exactly to the first `>` after the `<`, and that `>` must end the string.

The matcher below enumerates the remaining alternatives in exactly Python's
priority order (leading quote consumed first; name group longest first;
closing quote consumed first) and returns the first success.
-/

/-- The characters Python's `str.strip()` (and the regex class `\s`) treat
as whitespace, ASCII fragment. -/
def pyIsSpace (c : Char) : Bool :=
  c = ' ' || c = '\t' || c = '\n' || c = '\r' || c = '\x0b' || c = '\x0c'

/-- Python `str.strip()`. -/
def pyStrip (l : List Char) : List Char :=
  ((l.dropWhile pyIsSpace).reverse.dropWhile pyIsSpace).reverse

/-- Python `str.lower()` (ASCII fragment). -/
def pyLower (l : List Char) : List Char := l.map Char.toLower

/-- Match `([^>]+)>$` after the literal `<`: the group runs to the first
`>`, which must be the last character, and must be nonempty. -/
def angleTail (r : List Char) : Option (List Char) :=
  let e := r.takeWhile (fun c => c != '>')
  if e.isEmpty then none
  else if r.drop e.length = ['>'] then some e else none

/-- Match `\s*<([^>]+)>$`. -/
def wsAngle (r : List Char) : Option (List Char) :=
  match r.dropWhile pyIsSpace with
  | '<' :: rest => angleTail rest
  | _ => none

/-- Match `"?\s*<([^>]+)>$`: the optional closing quote is greedy, so the
quote-consuming alternative is tried first. -/
def quoteWsAngle (r : List Char) : Option (List Char) :=
  (match r with
   | '"' :: r' => wsAngle r'
   | _ => none).orElse (fun _ => wsAngle r)

/-- Candidate captures for the greedy group `([^"<]*)`: every prefix of the
maximal run of characters that are neither `"` nor `<`, longest first. -/
def nameCandidates (r : List Char) : List (List Char) :=
  let run := r.takeWhile (fun c => c != '"' && c != '<')
  (List.range (run.length + 1)).reverse.map (fun k => run.take k)

/-- Match `([^"<]*)"?\s*<([^>]+)>$`, returning (name capture, email
capture) of the highest-priority successful alternative. -/
def nameQuoteAngle (r : List Char) : Option (List Char × List Char) :=
  (nameCandidates r).findSome? (fun n =>
    (quoteWsAngle (r.drop n.length)).map (fun e => (n, e)))

/-- `re.match(r'^"?([^"<]*)"?\s*<([^>]+)>$', s)`: the leading optional
quote is greedy, so the quote-consuming alternative is tried first. -/
def matchFromHeader (s : List Char) : Option (List Char × List Char) :=
  (match s with
   | '"' :: s' => nameQuoteAngle s'
   | _ => none).orElse (fun _ => nameQuoteAngle s)

/-- Python `str.split(sep)` for a single-character separator: splits at
every occurrence, keeping empty parts; never returns an empty list. -/
def pySplit (c : Char) : List Char → List (List Char)
  | [] => [[]]
  | x :: xs =>
    let r := pySplit c xs
    if x = c then [] :: r
    else
      match r with
      | h :: t => (x :: h) :: t
      | [] => [[x]]

/-- The `domain` computation of `extract_email_parts`:
`email.split("@")[-1] if "@" in email else ""`. -/
def pyDomain (email : List Char) : List Char :=
  if email.contains '@' then ((pySplit '@' email).getLast?).getD [] else []

/-- `extract_email_parts` of `src/mailer/database.py`: strip the header,
match it against `^"?([^"<]*)"?\s*<([^>]+)>$`; on a match the name is the
stripped first group and the email the lower-cased second group, otherwise
the whole trimmed header lower-cased is the email with empty name; the
domain is `email.split("@")[-1]` when `"@"` occurs in the email, else
empty. Returns `(email, name, domain)`. -/
def extract_email_parts (from_header : String) : String × String × String :=
  let t := pyStrip from_header.data
  match matchFromHeader t with
  | some (n, e) =>
    let name := pyStrip n
    let email := pyLower e
    (⟨email⟩, ⟨name⟩, ⟨pyDomain email⟩)
  | none =>
    let email := pyLower t
    (⟨email⟩, "", ⟨pyDomain email⟩)

/-! ### The claimed address-parsing algorithm (claim C7)

A second definition written from the specification's four steps, compared
with the embedding of the source. The two differ textually in the `domain`
step: the claim says "the substring of `email` after the last `'@'`, or the
empty string if `email` contains no `'@'`", while the source computes
`email.split("@")[-1]`.
-/

/-- The substring after the last occurrence of `c` (the claim's wording of
the domain step). -/
def afterLastChar (c : Char) (l : List Char) : List Char :=
  (l.reverse.takeWhile (fun x => x != c)).reverse

/-- Modelled from the claim's four-step algorithm: strip surrounding
whitespace; if the trimmed string matches `"name" <email>` / `name <email>`
the email is the lower-cased captured email and the name the captured text
(stripped of surrounding whitespace, per the spec's step 1); otherwise the
whole trimmed lower-cased string is the email with empty name; the domain
is the substring of email after the last `'@'`, or empty if no `'@'`. -/
def claimed_address_parse (s : String) : String × String × String :=
  let t := pyStrip s.data
  match matchFromHeader t with
  | some (n, e) =>
    let email := pyLower e
    (⟨email⟩, ⟨pyStrip n⟩,
      if email.contains '@' then ⟨afterLastChar '@' email⟩ else "")
  | none =>
    let email := pyLower t
    (⟨email⟩, "",
      if email.contains '@' then ⟨afterLastChar '@' email⟩ else "")

/-! ### `pySplit` lemmas: the last split fragment is the suffix after the
last separator. -/

theorem pySplit_ne_nil (c : Char) (l : List Char) : pySplit c l ≠ [] := by
  induction l with
  | nil => simp [pySplit]
  | cons x xs ih =>
    unfold pySplit
    by_cases hx : x = c
    · simp [hx]
    · simp only [if_neg hx]
      cases hr : pySplit c xs with
      | nil => simp
      | cons h t => simp

theorem pySplit_of_not_mem (c : Char) (l : List Char) (hmem : c ∉ l) :
    pySplit c l = [l] := by
  induction l with
  | nil => rfl
  | cons x xs ih =>
    have hx : x ≠ c := by
      intro h
      exact hmem (by rw [← h]; exact List.mem_cons_self x xs)
    have hxs : c ∉ xs := fun h => hmem (List.mem_cons_of_mem x h)
    unfold pySplit
    rw [if_neg hx, ih hxs]

theorem pySplit_length (c : Char) (l : List Char) :
    (pySplit c l).length = l.count c + 1 := by
  induction l with
  | nil => simp [pySplit]
  | cons x xs ih =>
    unfold pySplit
    by_cases hx : x = c
    · rw [if_pos hx]
      have hb : (x == c) = true := by simp [hx]
      simp only [List.length_cons, ih, List.count_cons, hb, if_true]
    · rw [if_neg hx]
      have hb : (x == c) = false := by simp [hx]
      cases hr : pySplit c xs with
      | nil => exact absurd hr (pySplit_ne_nil c xs)
      | cons h t =>
        rw [hr] at ih
        simp only [List.length_cons] at ih ⊢
        simp only [List.count_cons, hb, Bool.false_eq_true, if_false]
        omega

theorem takeWhile_all {α : Type} (p : α → Bool) (l : List α)
    (h : ∀ a ∈ l, p a = true) : l.takeWhile p = l := by
  induction l with
  | nil => rfl
  | cons x xs ih =>
    rw [List.takeWhile_cons, if_pos (h x (List.mem_cons_self x xs))]
    rw [ih (fun a ha => h a (List.mem_cons_of_mem x ha))]

theorem takeWhile_append_of_neg {α : Type} (p : α → Bool) (l : List α)
    (a : α) (rest : List α) (h : p a = false) :
    (l ++ a :: rest).takeWhile p = l.takeWhile p := by
  induction l with
  | nil => simp [List.takeWhile_cons, h]
  | cons x xs ih =>
    by_cases hx : p x
    · simp only [List.cons_append, List.takeWhile_cons, hx, if_true]
      rw [ih]
    · simp [List.takeWhile_cons, hx]

theorem takeWhile_append_of_exists_neg {α : Type} (p : α → Bool)
    (l l2 : List α) (h : ∃ a ∈ l, p a = false) :
    (l ++ l2).takeWhile p = l.takeWhile p := by
  induction l with
  | nil =>
    obtain ⟨a, ha, _⟩ := h
    exact absurd ha (List.not_mem_nil a)
  | cons x xs ih =>
    by_cases hx : p x
    · obtain ⟨a, ha, hpa⟩ := h
      have ha' : a ∈ xs := by
        rcases List.mem_cons.mp ha with rfl | h'
        · rw [hx] at hpa; cases hpa
        · exact h'
      simp only [List.cons_append, List.takeWhile_cons, hx, if_true]
      rw [ih ⟨a, ha', hpa⟩]
    · have hx' : p x = false := by simpa using hx
      simp [List.takeWhile_cons, hx']

theorem getLast?_pySplit (c : Char) (l : List Char) :
    (pySplit c l).getLast? = some (afterLastChar c l) := by
  induction l with
  | nil => rfl
  | cons x xs ih =>
    unfold pySplit
    by_cases hx : x = c
    · rw [if_pos hx]
      cases hr : pySplit c xs with
      | nil => exact absurd hr (pySplit_ne_nil c xs)
      | cons h t =>
        rw [List.getLast?_cons_cons, ← hr, ih]
        unfold afterLastChar
        rw [List.reverse_cons,
          takeWhile_append_of_neg _ xs.reverse x [] (by simp [hx])]
    · rw [if_neg hx]
      cases hr : pySplit c xs with
      | nil => exact absurd hr (pySplit_ne_nil c xs)
      | cons h t =>
        cases t with
        | nil =>
          have hlen := pySplit_length c xs
          rw [hr] at hlen
          simp only [List.length_cons, List.length_nil] at hlen
          have hcnt : xs.count c = 0 := by omega
          have hnot : c ∉ xs := by
            rw [← List.count_eq_zero]
            exact hcnt
          have hxs := pySplit_of_not_mem c xs hnot
          rw [hr] at hxs
          have hh : h = xs := (List.cons.injEq _ _ _ _ ▸ hxs).1
          subst hh
          unfold afterLastChar
          have hall : ∀ a ∈ (x :: h).reverse, (fun y => y != c) a = true := by
            intro a ha
            rw [List.mem_reverse] at ha
            rcases List.mem_cons.mp ha with rfl | ha'
            · simp [hx]
            · have : a ≠ c := fun hc => hnot (hc ▸ ha')
              simp [this]
          rw [takeWhile_all _ _ hall, List.reverse_reverse]
          rfl
        | cons h2 t2 =>
          rw [List.getLast?_cons_cons]
          rw [hr, List.getLast?_cons_cons] at ih
          rw [ih]
          have hlen := pySplit_length c xs
          rw [hr] at hlen
          simp only [List.length_cons] at hlen
          have hmem : c ∈ xs := by
            rw [← List.count_pos_iff]
            omega
          unfold afterLastChar
          rw [List.reverse_cons, takeWhile_append_of_exists_neg]
          exact ⟨c, by simp [hmem], by simp⟩

theorem pyDomain_eq_afterLast (email : List Char) :
    pyDomain email
      = if email.contains '@' then afterLastChar '@' email else [] := by
  unfold pyDomain
  rw [getLast?_pySplit '@' email]
  rfl

/-- **C7.** `extract_email_parts` implements the claimed four-step
address-parsing algorithm (first conjunct: the source function equals, on
every input, the algorithm written from the specification's own wording,
where the domain is literally "the substring of email after the last `@`,
or empty if no `@`"), and in particular produces the three example results
the claim lists. -/
theorem extract_email_parts_spec :
    (∀ s : String, extract_email_parts s = claimed_address_parse s)
    ∧ extract_email_parts "John Doe <john@example.com>"
        = ("john@example.com", "John Doe", "example.com")
    ∧ extract_email_parts "john@example.com"
        = ("john@example.com", "", "example.com")
    ∧ extract_email_parts "" = ("", "", "") := by
  refine ⟨?_, by decide, by decide, by decide⟩
  intro s
  unfold extract_email_parts claimed_address_parse
  cases hm : matchFromHeader (pyStrip s.data) with
  | some p =>
    obtain ⟨n, e⟩ := p
    simp only [hm]
    rw [pyDomain_eq_afterLast]
    by_cases hc : (pyLower e).contains '@' = true
    · rw [if_pos hc, if_pos hc]
    · rw [if_neg hc, if_neg hc]
  | none =>
    simp only [hm]
    rw [pyDomain_eq_afterLast]
    by_cases hc : (pyLower (pyStrip s.data)).contains '@' = true
    · rw [if_pos hc, if_pos hc]
    · rw [if_neg hc, if_neg hc]

/-! ### The relational store state and `insert_email`

`insert_email` first runs `extract_email_parts`, then a `SELECT` probing
whether the id already exists, then builds the `INSERT OR REPLACE` parameter
tuple left to right. Four optional fields (`cc`, `body_html`, `date`,
`size_estimate`) are probed with `hasattr` and fall back to defaults, but
`email.attachments` is read **unguarded** while building the tuple, before
the `INSERT` statement is handed to the connection.
-/

/-- Minimal `json.dumps` for a string (escaping only the quote and the
backslash, which is all the dead success path below ever needs). -/
def jsonStr (s : String) : String :=
  ⟨'"' :: (s.data.foldr (fun c acc =>
    if c = '"' then '\\' :: '"' :: acc
    else if c = '\\' then '\\' :: '\\' :: acc
    else c :: acc) ['"'])⟩

/-- `json.dumps` of a list of strings. -/
def jsonArr (xs : List String) : String :=
  "[" ++ String.intercalate ", " (xs.map jsonStr) ++ "]"

/-- `json.dumps` of a dynamic value, as used for the `cc` column. -/
def pyJsonDumps : PyValue → String
  | .str s => jsonStr s
  | .int n => toString n
  | .strList xs => jsonArr xs
  | .attList _ => ""

/-- A row of the `emails` table. -/
structure EmailRow where
  id : String
  thread_id : String
  from_email : String
  from_name : String
  from_domain : String
  to_emails : String
  cc_emails : String
  subject : String
  body : String
  body_html : String
  snippet : String
  label_ids : String
  date_header : String
  timestamp : Int
  size_estimate : Int
  has_attachments : Int
  created_at : String
  updated_at : String
deriving DecidableEq, Repr

/-- A row of the `attachments` table. -/
structure AttachmentRow where
  message_id : String
  attachment_id : Option String
  filename : String
  mime_type : String
  size : Int
deriving DecidableEq, Repr

/-- The relational database state: the `emails` table (keyed by `id`) and
the `attachments` table (keyed by `(message_id, attachment_id)`). -/
structure Db where
  emails : List EmailRow := []
  attachments : List AttachmentRow := []
deriving DecidableEq, Repr

/-- `INSERT OR REPLACE` into `emails`, keyed on the primary key `id`. -/
def upsertEmailRow (row : EmailRow) (emails : List EmailRow) : List EmailRow :=
  row :: emails.filter (fun r => r.id != row.id)

/-- `INSERT OR REPLACE` into `attachments`, keyed on the unique pair
`(message_id, attachment_id)`. -/
def upsertAttachmentRow (row : AttachmentRow) (atts : List AttachmentRow) :
    List AttachmentRow :=
  row :: atts.filter (fun r =>
    r.message_id != row.message_id || r.attachment_id != row.attachment_id)

/-- Result of one `insert_email` call: a normal return carrying `was_new`
and the updated database, or a propagating `AttributeError` naming the
missing attribute and carrying the (unchanged) database at the point the
exception was raised. -/
inductive InsertResult where
  | ok (was_new : Bool) (db : Db)
  | attrError (attr : String) (db : Db)
deriving DecidableEq, Repr

/-- `insert_email` of `src/mailer/database.py`. `now` is the value of
`datetime.now().isoformat()` (and the `CURRENT_TIMESTAMP` default applied
to `created_at` by the `INSERT OR REPLACE`, which does not name that
column). -/
def insert_email (now : String) (email : GmailMessage) (db : Db) :
    InsertResult :=
  let parts := extract_email_parts email.from_email
  let email_addr := parts.1
  let name := parts.2.1
  let domain := parts.2.2
  let exists_ : Bool := db.emails.any (fun r => r.id == email.id)
  let cc_emails := match email.getattr "cc" with
    | some v => pyJsonDumps v
    | none => "[]"
  let body_html := match email.getattr "body_html" with
    | some (.str s) => s
    | some _ => ""
    | none => ""
  let date_header := match email.getattr "date" with
    | some (.str s) => s
    | some _ => ""
    | none => ""
  let size_estimate : Int := match email.getattr "size_estimate" with
    | some (.int n) => n
    | some _ => 0
    | none => 0
  match email.getattr "attachments" with
  | none => .attrError "attachments" db
  | some v =>
    let atts := match v with
      | .attList xs => xs
      | _ => []
    let has_attachments : Int := if atts.isEmpty then 0 else 1
    let row : EmailRow :=
      { id := email.id, thread_id := email.thread_id
        from_email := email_addr, from_name := name, from_domain := domain
        to_emails := jsonArr email.to_, cc_emails := cc_emails
        subject := email.subject, body := email.body, body_html := body_html
        snippet := email.snippet, label_ids := jsonArr email.label_ids
        date_header := date_header, timestamp := email.timestamp
        size_estimate := size_estimate, has_attachments := has_attachments
        created_at := now, updated_at := now }
    let db1 : Db := { db with emails := upsertEmailRow row db.emails }
    let db2 : Db :=
      if atts.isEmpty then db1
      else { db1 with attachments := atts.foldl (fun acc att =>
        upsertAttachmentRow
          { message_id := email.id, attachment_id := att.attachment_id
            filename := att.filename, mime_type := att.mime_type
            size := att.size } acc) db1.attachments }
    .ok (!exists_) db2

/-- Result of `insert_emails`: the count of new emails and the final
database, or a propagating `AttributeError`. -/
inductive BatchResult where
  | ok (new_count : Nat) (db : Db)
  | attrError (attr : String) (db : Db)
deriving DecidableEq, Repr

/-- The loop of `insert_emails`: an exception from `insert_email`
propagates, aborting the rest of the batch before the final commit. -/
def insert_emails_loop (now : String) (new_count : Nat) (db : Db) :
    List GmailMessage → BatchResult
  | [] => .ok new_count db
  | e :: rest =>
    match insert_email now e db with
    | .ok was_new db' =>
      insert_emails_loop now (if was_new then new_count + 1 else new_count)
        db' rest
    | .attrError a db' => .attrError a db'

/-- `insert_emails` of `src/mailer/database.py`. -/
def insert_emails (now : String) (emails : List GmailMessage) (db : Db) :
    BatchResult :=
  insert_emails_loop now 0 db emails

/-- **C4.** The declared `GmailMessage` model has no `attachments`, `cc`,
`body_html`, `date` or `size_estimate` attribute; the four guarded ones
fall back to defaults, but the unguarded read of `email.attachments` while
building the INSERT parameter tuple raises `AttributeError` on every
record and every database state, before the INSERT executes — so
`insert_email` never returns normally and the database is unchanged on
this error. -/
theorem insert_email_always_attr_error (now : String) (m : GmailMessage)
    (db : Db) :
    m.getattr "attachments" = none
    ∧ m.getattr "cc" = none
    ∧ m.getattr "body_html" = none
    ∧ m.getattr "date" = none
    ∧ m.getattr "size_estimate" = none
    ∧ insert_email now m db = .attrError "attachments" db := by
  refine ⟨rfl, rfl, rfl, rfl, rfl, rfl⟩

/-- **C3 (failing evaluation).** The claimed idempotent upsert cannot be
exhibited: at a concrete record and the empty database, the first call
raises `AttributeError` (leaving the database unchanged) instead of
returning `was_new = true`, and the identical second call raises again
instead of returning `was_new = false`. -/
theorem insert_email_twice_raises :
    insert_email "2024-01-01T00:00:00" { id := "m1", thread_id := "t1" } {}
      = .attrError "attachments" {}
    ∧ insert_email "2024-01-01T00:00:01" { id := "m1", thread_id := "t1" } {}
      = .attrError "attachments" {} :=
  ⟨rfl, rfl⟩

/-- **C8 (failing evaluation).** `insert_email` does not return whether the
id existed prior to the call: at a concrete record whose id is already
present in the `emails` table, the call raises `AttributeError` instead of
returning `false`/`true` — it never returns `.ok` at all. -/
theorem insert_email_never_reports_existence :
    (∀ (b : Bool) (db' : Db),
      insert_email "2024-01-01T00:00:00" { id := "m1", thread_id := "t1" }
          { emails := [{ id := "m1", thread_id := "t1", from_email := ""
                         from_name := "", from_domain := "", to_emails := "[]"
                         cc_emails := "[]", subject := "", body := ""
                         body_html := "", snippet := "", label_ids := "[]"
                         date_header := "", timestamp := 0, size_estimate := 0
                         has_attachments := 0, created_at := ""
                         updated_at := "" }] }
        ≠ .ok b db')
    ∧ insert_email "2024-01-01T00:00:00" { id := "m1", thread_id := "t1" }
          { emails := [{ id := "m1", thread_id := "t1", from_email := ""
                         from_name := "", from_domain := "", to_emails := "[]"
                         cc_emails := "[]", subject := "", body := ""
                         body_html := "", snippet := "", label_ids := "[]"
                         date_header := "", timestamp := 0, size_estimate := 0
                         has_attachments := 0, created_at := ""
                         updated_at := "" }] }
      = .attrError "attachments"
          { emails := [{ id := "m1", thread_id := "t1", from_email := ""
                         from_name := "", from_domain := "", to_emails := "[]"
                         cc_emails := "[]", subject := "", body := ""
                         body_html := "", snippet := "", label_ids := "[]"
                         date_header := "", timestamp := 0, size_estimate := 0
                         has_attachments := 0, created_at := ""
                         updated_at := "" }] } := by
  refine ⟨?_, rfl⟩
  intro b db' h
  rw [(insert_email_always_attr_error "2024-01-01T00:00:00"
    { id := "m1", thread_id := "t1" } _).2.2.2.2.2] at h
  exact InsertResult.noConfusion h

/-- **C5 (failing evaluation).** The FTS-consistency scenario is
unreachable: upserting a concrete message with a unique subject token into
a fresh database raises `AttributeError` before any `emails` row (and hence
any `emails_fts` entry) is created, so no search can ever return the
message. -/
theorem insert_emails_search_scenario_unreachable :
    insert_emails "2024-01-01T00:00:00"
        [{ id := "m1", thread_id := "t1", subject := "zebra"
           body := "stripes" }] {}
      = .attrError "attachments" {} := rfl

end Mailer
